import Mathlib

/-!
Verification development for the Message-entangle repository
(src/Code1.py: duplex-link application with teleportation pipeline,
 src/Code2.py: terminal client, src/Code3.py: horizon variant).

The Python source is shallowly embedded below: pure fragments become Lean
functions, the qiskit circuits built by `QTeleportationManager` are embedded
via their state-vector semantics over the three simulated qubits, strings are
`List Char`, byte strings are `List Nat` (entries < 256), and library calls
that sample randomness (qiskit shots, `qt.rand_ket`) or compute opaque
library values (`qt.fidelity`, HMAC-SHA256) are oracle parameters, so every
theorem quantifies over the values those libraries may return.
-/

/-! ## Section 1: the teleportation circuits of `QTeleportationManager`
(src/Code1.py lines 86-205).

The two circuits use only the gates X, H, CX, Z and computational-basis
measurement, so their state vectors have real amplitudes.  We represent an
(unnormalised) three-qubit state vector as a map from the basis labels
(b0, b1, b2) of qubits q0, q1, q2 to a rational amplitude; the Hadamard gate
is taken unnormalised (matrix entries 1, 1, 1, -1), which scales the whole
vector by `sqrt 2` per application and therefore leaves every measurement
probability (a ratio of squared amplitudes) unchanged. -/

/-- Unnormalised real amplitudes of a 3-qubit state, indexed by the
computational-basis values of qubits q0, q1, q2. -/
abbrev QVec := Bool → Bool → Bool → ℚ

/-- Basis state |b 0 0⟩: message qubit q0 prepared to `b`, q1 = q2 = 0
(`qc.x(q[0])` when `bit_value == 1` applied to the all-zero register). -/
def prepMessage (b : Bool) : QVec :=
  fun b0 b1 b2 => if b0 = b ∧ b1 = false ∧ b2 = false then 1 else 0

/-- X gate on qubit q2 (`qc2.x(q[2])`). -/
def xQ2 (v : QVec) : QVec := fun b0 b1 b2 => v b0 b1 (!b2)

/-- Z gate on qubit q2 (`qc2.z(q[2])`). -/
def zQ2 (v : QVec) : QVec :=
  fun b0 b1 b2 => if b2 then -(v b0 b1 b2) else v b0 b1 b2

/-- Unnormalised Hadamard on qubit q0 (`qc.h(q[0])`). -/
def hQ0 (v : QVec) : QVec :=
  fun b0 b1 b2 => if b0 then v false b1 b2 - v true b1 b2
                  else v false b1 b2 + v true b1 b2

/-- Unnormalised Hadamard on qubit q1 (`qc.h(q[1])`). -/
def hQ1 (v : QVec) : QVec :=
  fun b0 b1 b2 => if b1 then v b0 false b2 - v b0 true b2
                  else v b0 false b2 + v b0 true b2

/-- CNOT with control q1, target q2 (`qc.cx(q[1], q[2])`). -/
def cxQ1Q2 (v : QVec) : QVec :=
  fun b0 b1 b2 => v b0 b1 (if b1 then !b2 else b2)

/-- CNOT with control q0, target q1 (`qc.cx(q[0], q[1])`). -/
def cxQ0Q1 (v : QVec) : QVec :=
  fun b0 b1 b2 => v b0 (if b0 then !b1 else b1) b2

/-- Sum of squared amplitudes of a state vector (the normalisation factor of
every measurement probability). -/
def sqNorm (v : QVec) : ℚ :=
  v false false false ^ 2 + v true false false ^ 2 +
  v false true false ^ 2 + v true true false ^ 2 +
  v false false true ^ 2 + v true false true ^ 2 +
  v false true true ^ 2 + v true true true ^ 2

/-- State prepared by `_build_teleport_circuit_for_bit` just before the two
measurements (src/Code1.py lines 94-110): prepare q0 to the input bit, make a
Bell pair on (q1, q2), then `cx(q0, q1)` and `h(q0)`. -/
def phase1State (b : Bool) : QVec :=
  hQ0 (cxQ0Q1 (cxQ1Q2 (hQ1 (prepMessage b))))

/-- Probability that the two measurements of the first circuit
(`qc.measure(q[0], c[0])`, `qc.measure(q[1], c[1])`) return `(m0, m1)`. -/
def aliceProb (b m0 m1 : Bool) : ℚ :=
  (phase1State b m0 m1 false ^ 2 + phase1State b m0 m1 true ^ 2) /
    sqNorm (phase1State b)

/-- State prepared by the second circuit of `teleport_bit`
(src/Code1.py lines 168-182): re-prepare q0 to the input bit, make a fresh
Bell pair on (q1, q2), then apply X to q2 if `m1 = 1` and Z to q2 if
`m0 = 1`.  Note that this circuit never entangles q0 with the Bell pair. -/
def phase2State (b m0 m1 : Bool) : QVec :=
  (if m0 then zQ2 else id)
    ((if m1 then xQ2 else id) (cxQ1Q2 (hQ1 (prepMessage b))))

/-- Probability that `qc2.measure(q[2], c[0])` returns `t` in the second
circuit, i.e. that `teleported_bit = t`. -/
def bobProb (b m0 m1 t : Bool) : ℚ :=
  (phase2State b m0 m1 false false t ^ 2 + phase2State b m0 m1 true false t ^ 2 +
   phase2State b m0 m1 false true t ^ 2 + phase2State b m0 m1 true true t ^ 2) /
    sqNorm (phase2State b m0 m1)

/-- Collapse of the first circuit's state onto the measurement record
`(m0, m1)` of qubits (q0, q1): the residual state of q2 in a run of the
*single* standard teleportation circuit described by the docstring of
`_build_teleport_circuit_for_bit` ("We measure q0 and q1 and apply
corrections to q2, then measure q2 to read teleported bit"). -/
def collapse (m0 m1 : Bool) (v : QVec) : QVec :=
  fun b0 b1 b2 => if b0 = m0 ∧ b1 = m1 then v b0 b1 b2 else 0

/-- q2 of the single combined teleportation circuit: collapse the first
circuit at `(m0, m1)`, then apply the X/Z corrections of lines 178-181 to
the same (collapsed) q2. -/
def combinedState (b m0 m1 : Bool) : QVec :=
  (if m0 then zQ2 else id)
    ((if m1 then xQ2 else id) (collapse m0 m1 (phase1State b)))

/-- Probability that measuring q2 of the combined circuit returns `t`,
conditioned on the first measurement having returned `(m0, m1)`. -/
def combinedProb (b m0 m1 t : Bool) : ℚ :=
  (combinedState b m0 m1 false false t ^ 2 + combinedState b m0 m1 true false t ^ 2 +
   combinedState b m0 m1 false true t ^ 2 + combinedState b m0 m1 true true t ^ 2) /
    sqNorm (combinedState b m0 m1)

/-- C1: the sender-side Bell measurement of `teleport_bit` produces every
correction pair `(m0, m1)` with probability 1/4; but for every input bit and
every correction pair, the second ("receiver-side") circuit that the code
actually executes measures the flipped bit `!b` with probability 1/2, so
`teleported_bit == b` (and hence `success`) fails on half of all runs.  Had
the corrections been applied to the q2 of the *measured* first circuit, as
the docstring of `_build_teleport_circuit_for_bit` describes, the teleported
bit would equal the input bit with probability 1. -/
theorem teleport_bit_phase2_not_deterministic :
    ∀ b m0 m1 : Bool,
      aliceProb b m0 m1 = 1 / 4 ∧
      bobProb b m0 m1 (!b) = 1 / 2 ∧
      bobProb b m0 m1 b = 1 / 2 ∧
      combinedProb b m0 m1 b = 1 := by
  intro b m0 m1
  cases b <;> cases m0 <;> cases m1 <;>
    refine ⟨?_, ?_, ?_, ?_⟩ <;>
      simp [aliceProb, bobProb, combinedProb, phase1State, phase2State,
        combinedState, sqNorm, hQ0, hQ1, cxQ0Q1, cxQ1Q2, xQ2, zQ2,
        prepMessage, collapse] <;> norm_num

/-! ## Section 2: the byte pipeline of `QTeleportationManager`
(src/Code1.py lines 114-218).

`teleport_bit` executes both circuits with `shots=1`, so each call consumes
one sampled Bell-measurement pair `(m0, m1)` (each of the four values with
probability 1/4, by `teleport_bit_phase2_not_deterministic`) and one sampled
phase-2 measurement (each bit with probability 1/2, independent of the
corrections, by the same theorem).  The embedding therefore passes the
sampled values in as an oracle `ShotSample`; `teleport_bytes` consumes one
sample per bit, indexed by the number of results accumulated so far. -/

/-- The two measurement samples consumed by one `teleport_bit` call:
the Alice record `(m0, m1)` of the first `execute(..., shots=1)` and the
measured q2 bit of the second. -/
structure ShotSample where
  alice : Bool × Bool
  bob : Bool
deriving DecidableEq

/-- Backend state of `QTeleportationManager`: `backend` is `none` exactly
when `_init_backend` failed (`self.backend = None`), and `backend_name`
keeps its last assigned label (initially `"aer_simulator"`). -/
structure Teleporter where
  backend : Option Unit
  backend_name : String
deriving DecidableEq

/-- Per-bit result dictionary returned by `teleport_bit`
(src/Code1.py lines 199-205). -/
structure TeleportBitResult where
  input_bit : Bool
  alice_bits : Bool × Bool
  teleported_bit : Bool
  success : Bool
  backend : String
deriving DecidableEq

/-- `teleport_bit` (src/Code1.py lines 114-205): raises
`RuntimeError("No quantum backend available for teleportation")` when the
backend is `None`; otherwise returns the result dictionary with
`success = (teleported_bit == bit)`. -/
def teleport_bit (tp : Teleporter) (bit : Bool) (r : ShotSample) :
    Except String TeleportBitResult :=
  match tp.backend with
  | none => .error "No quantum backend available for teleportation"
  | some _ => .ok { input_bit := bit, alice_bits := r.alice,
                    teleported_bit := r.bob, success := r.bob == bit,
                    backend := tp.backend_name }

/-- The inner `for i in range(8)` loop of `teleport_bytes`
(src/Code1.py lines 214-217): `bit = (byte >> (7 - i)) & 0x1`, then
`results.append(self.teleport_bit(bit))`; a raised exception aborts the
whole loop. -/
def teleportBitLoop (tp : Teleporter) (rs : Nat → ShotSample) (byte : Nat) :
    List Nat → List TeleportBitResult → Except String (List TeleportBitResult)
  | [], acc => .ok acc
  | i :: is, acc =>
    match teleport_bit tp (((byte >>> (7 - i)) &&& 1) == 1) (rs acc.length) with
    | .error e => .error e
    | .ok r => teleportBitLoop tp rs byte is (acc ++ [r])

/-- The outer `for byte in data_bytes` loop of `teleport_bytes`
(src/Code1.py lines 213-217). -/
def teleportByteLoop (tp : Teleporter) (rs : Nat → ShotSample) :
    List Nat → List TeleportBitResult → Except String (List TeleportBitResult)
  | [], acc => .ok acc
  | byte :: rest, acc =>
    match teleportBitLoop tp rs byte (List.range 8) acc with
    | .error e => .error e
    | .ok acc2 => teleportByteLoop tp rs rest acc2

/-- `teleport_bytes` (src/Code1.py lines 207-218). -/
def teleport_bytes (tp : Teleporter) (rs : Nat → ShotSample) (data : List Nat) :
    Except String (List TeleportBitResult) :=
  teleportByteLoop tp rs data []

/-- The eight bits of a byte, most-significant bit first. -/
def byteBits (byte : Nat) : List Bool :=
  [byte.testBit 7, byte.testBit 6, byte.testBit 5, byte.testBit 4,
   byte.testBit 3, byte.testBit 2, byte.testBit 1, byte.testBit 0]

/-- All bits of a byte payload, bytes in order, each byte MSB first. -/
def payloadBits (data : List Nat) : List Bool := data.flatMap byteBits

/-- The result dictionary `teleport_bit` builds for input `b` from sample
`r` when a backend is available. -/
def mkBitResult (bn : String) (b : Bool) (r : ShotSample) : TeleportBitResult :=
  { input_bit := b, alice_bits := r.alice, teleported_bit := r.bob,
    success := r.bob == b, backend := bn }

/-- The per-bit results of a successful pipeline run over a bit list,
consuming samples `rs i`, `rs (i+1)`, ... in order. -/
def expectedBitResults (bn : String) (rs : Nat → ShotSample) :
    Nat → List Bool → List TeleportBitResult
  | _, [] => []
  | i, b :: rest => mkBitResult bn b (rs i) :: expectedBitResults bn rs (i + 1) rest

/-- `succ = sum(1 for r in bit_results if r["success"])`
(src/Code1.py line 388). -/
def succCount (L : List TeleportBitResult) : Nat := L.countP (fun r => r.success)

lemma shiftAnd_eq_testBit (byte i : Nat) :
    (((byte >>> i) &&& 1) == 1) = byte.testBit i := by
  rw [Nat.testBit_to_div_mod, Nat.and_one_is_mod, Nat.shiftRight_eq_div_pow]
  by_cases h : byte / 2 ^ i % 2 = 1 <;> simp [h]

lemma teleport_bit_ok (bn : String) (b : Bool) (r : ShotSample) :
    teleport_bit ⟨some (), bn⟩ b r = .ok (mkBitResult bn b r) := rfl

lemma expectedBitResults_append (bn : String) (rs : Nat → ShotSample) :
    ∀ (xs ys : List Bool) (n : Nat),
      expectedBitResults bn rs n (xs ++ ys) =
        expectedBitResults bn rs n xs ++
          expectedBitResults bn rs (n + xs.length) ys := by
  intro xs
  induction xs with
  | nil => simp [expectedBitResults]
  | cons b rest ih =>
    intro ys n
    simp only [List.cons_append, expectedBitResults, List.append_eq,
      List.length_cons]
    rw [ih]
    have h : n + 1 + rest.length = n + (rest.length + 1) := by omega
    rw [h]

lemma expectedBitResults_length (bn : String) (rs : Nat → ShotSample) :
    ∀ (bits : List Bool) (n : Nat),
      (expectedBitResults bn rs n bits).length = bits.length := by
  intro bits
  induction bits with
  | nil => simp [expectedBitResults]
  | cons b rest ih => intro n; simp [expectedBitResults, ih]

lemma teleportBitLoop_ok (bn : String) (rs : Nat → ShotSample) (byte : Nat) :
    ∀ (idxs : List Nat) (acc : List TeleportBitResult),
      teleportBitLoop ⟨some (), bn⟩ rs byte idxs acc =
        .ok (acc ++ expectedBitResults bn rs acc.length
              (idxs.map fun i => byte.testBit (7 - i))) := by
  intro idxs
  induction idxs with
  | nil => intro acc; simp [teleportBitLoop, expectedBitResults]
  | cons i is ih =>
    intro acc
    rw [teleportBitLoop, shiftAnd_eq_testBit, teleport_bit_ok]
    show teleportBitLoop ⟨some (), bn⟩ rs byte is
        (acc ++ [mkBitResult bn (byte.testBit (7 - i)) (rs acc.length)]) = _
    rw [ih]
    simp [expectedBitResults, List.append_assoc]

lemma range8_map_testBit (byte : Nat) :
    ((List.range 8).map fun i => byte.testBit (7 - i)) = byteBits byte := rfl

lemma teleportByteLoop_ok (bn : String) (rs : Nat → ShotSample) :
    ∀ (data : List Nat) (acc : List TeleportBitResult),
      teleportByteLoop ⟨some (), bn⟩ rs data acc =
        .ok (acc ++ expectedBitResults bn rs acc.length (payloadBits data)) := by
  intro data
  induction data with
  | nil => intro acc; simp [teleportByteLoop, payloadBits, expectedBitResults]
  | cons byte rest ih =>
    intro acc
    rw [teleportByteLoop, teleportBitLoop_ok, range8_map_testBit]
    show teleportByteLoop ⟨some (), bn⟩ rs rest
        (acc ++ expectedBitResults bn rs acc.length (byteBits byte)) = _
    rw [ih]
    have hbits : payloadBits (byte :: rest) = byteBits byte ++ payloadBits rest := by
      simp [payloadBits]
    rw [hbits, expectedBitResults_append]
    simp [expectedBitResults_length, List.append_assoc]

lemma payloadBits_length (data : List Nat) :
    (payloadBits data).length = 8 * data.length := by
  induction data with
  | nil => simp [payloadBits]
  | cons byte rest ih =>
    have : payloadBits (byte :: rest) = byteBits byte ++ payloadBits rest := by
      simp [payloadBits]
    rw [this, List.length_append, ih]
    have hb : (byteBits byte).length = 8 := rfl
    rw [hb, List.length_cons]
    omega

lemma expectedBitResults_get? (bn : String) (rs : Nat → ShotSample) :
    ∀ (bits : List Bool) (n i : Nat),
      (expectedBitResults bn rs n bits).get? i =
        (bits.get? i).map fun b => mkBitResult bn b (rs (n + i)) := by
  intro bits
  induction bits with
  | nil => intro n i; simp [expectedBitResults]
  | cons b rest ih =>
    intro n i
    cases i with
    | zero => simp [expectedBitResults]
    | succ j =>
      have h : n + 1 + j = n + (j + 1) := by omega
      simp only [expectedBitResults, List.get?_cons_succ, ih, h]

/-- C3: with an available backend, `teleport_bytes` returns one result per
bit of the payload, bytes in order and each byte most-significant bit
first, the i-th result being `teleport_bit` applied to the i-th bit with
the i-th sample; the total count is `8 * len(bytes)` and
`0 ≤ successCount ≤ totalCount`. -/
theorem teleport_bytes_msb_first_aggregate :
    ∀ (bn : String) (rs : Nat → ShotSample) (data : List Nat),
      teleport_bytes ⟨some (), bn⟩ rs data =
        .ok (expectedBitResults bn rs 0 (payloadBits data)) ∧
      (expectedBitResults bn rs 0 (payloadBits data)).length = 8 * data.length ∧
      (∀ i : Nat, (expectedBitResults bn rs 0 (payloadBits data)).get? i =
        ((payloadBits data).get? i).map fun b => mkBitResult bn b (rs i)) ∧
      0 ≤ succCount (expectedBitResults bn rs 0 (payloadBits data)) ∧
      succCount (expectedBitResults bn rs 0 (payloadBits data)) ≤
        (expectedBitResults bn rs 0 (payloadBits data)).length := by
  intro bn rs data
  refine ⟨?_, ?_, ?_, Nat.zero_le _, ?_⟩
  · rw [teleport_bytes, teleportByteLoop_ok]
    simp
  · rw [expectedBitResults_length, payloadBits_length]
  · intro i
    rw [expectedBitResults_get?]
    simp
  · exact List.countP_le_length _

/-! ## Section 3: the authenticated message codec and the receiver branch of
`_listen_for_messages` (src/Code1.py lines 352-432).

Python `str` is embedded as `List Char` and Python `bytes` as `List Nat`
with entries < 256.  `hmac.new(CLASSICAL_AUTH_SECRET, raw,
hashlib.sha256).digest()` is a fixed deterministic library function of the
raw payload (the pre-shared secret is a constant), so it enters the
embedding as an oracle parameter `mac`; `hmac.compare_digest` is
byte-string equality (its constant-time execution is a timing property with
no shallow embedding).  The timestamp `time.strftime(...)`, the text of a
caught exception, and the formatted heartbeat line
`f"FIDELITY:{self.fidelity:.4f}\n"` are opaque strings and enter as
parameters `ts`, `errText`, `fidLine`. -/

/-- First-occurrence split `s.split(sep, 1)`, returning the parts before and
after the separator, or `none` when `sep not in s`. -/
def splitOnce (sep : List Char) : List Char → Option (List Char × List Char)
  | [] => none
  | c :: rest =>
    if sep.isPrefixOf (c :: rest) then some ([], (c :: rest).drop sep.length)
    else
      match splitOnce sep rest with
      | some (l, r) => some (c :: l, r)
      | none => none

/-- Index of a character in a list, used to look up digit values. -/
def charIndexAux : List Char → Char → Nat → Option Nat
  | [], _, _ => none
  | a :: as, c, n => if a = c then some n else charIndexAux as c (n + 1)

/-- The base64 alphabet (RFC 4648), indexed by 6-bit values. -/
def b64Chars : List Char :=
  "ABCDEFGHIJKLMNOPQRSTUVWXYZabcdefghijklmnopqrstuvwxyz0123456789+/".toList

/-- Membership in the base64 alphabet. -/
def isB64Char (c : Char) : Bool := b64Chars.contains c

/-- 6-bit value of a base64 alphabet character. -/
def b64Val (c : Char) : Option Nat := charIndexAux b64Chars c 0

/-- Base64 character of a 6-bit value. -/
def b64Char (v : Nat) : Char := b64Chars.getD v 'A'

/-- The decoding loop of `binascii.a2b_base64` in non-strict mode, which is
what `base64.b64decode(s)` with the default `validate=False` runs.  `qp` is
the position inside the current four-character quad, `lc` holds the pending
bits of the quad, and `pads` counts the padding characters seen since the
last data character.  A character outside the alphabet is skipped; `=` is
ignored while fewer than two data characters of the quad have been seen,
and otherwise ends the decoding successfully once the quad is completed by
padding (two `=` from quad position 2, one from position 3); input ending
mid-quad without such padding is a padding error.  A byte is emitted as
soon as its bits are complete, so a decode that ends at padding keeps the
bytes already produced. -/
def a2bBase64Loop : List Char → Nat → Nat → Nat → List Nat → Option (List Nat)
  | [], qp, _, _, acc => if qp = 0 then some acc else none
  | c :: rest, qp, lc, pads, acc =>
    if c = '=' then
      if 2 ≤ qp ∧ 4 ≤ qp + (pads + 1) then some acc
      else a2bBase64Loop rest qp lc (if 2 ≤ qp then pads + 1 else pads) acc
    else
      match b64Val c with
      | none => a2bBase64Loop rest qp lc pads acc
      | some v =>
        match qp with
        | 0 => a2bBase64Loop rest 1 v 0 acc
        | 1 => a2bBase64Loop rest 2 ((lc * 64 + v) % 16) 0
            (acc ++ [(lc * 64 + v) / 16])
        | 2 => a2bBase64Loop rest 3 ((lc * 64 + v) % 4) 0
            (acc ++ [(lc * 64 + v) / 4])
        | _ => a2bBase64Loop rest 0 0 0 (acc ++ [lc * 64 + v])

/-- `base64.b64decode` on a string argument (the call at src/Code1.py line
373): the string must be pure ASCII (else `ValueError`), and the resulting
bytes are decoded by `binascii.a2b_base64` in non-strict mode. -/
def b64decodePy (cs : List Char) : Option (List Nat) :=
  if cs.all (fun c => decide (c.toNat < 128)) then a2bBase64Loop cs 0 0 0 []
  else none

/-- Lowercase hexadecimal digits, indexed by value. -/
def hexLower : List Char := "0123456789abcdef".toList

/-- Value of a hexadecimal digit, either case. -/
def hexVal (c : Char) : Option Nat :=
  match charIndexAux hexLower c 0 with
  | some v => some v
  | none => charIndexAux "ABCDEF".toList c 10

/-- Lowercase hexadecimal digit of a value below 16 (the form produced by
`hmac.digest().hex()`-style encoders). -/
def hexDigit (v : Nat) : Char := hexLower.getD v '0'

/-- ASCII whitespace in the C locale (`Py_ISSPACE`), the class skipped by
`bytes.fromhex`. -/
def isWhite (c : Char) : Bool :=
  c = ' ' || c = '\t' || c = '\n' || c = '\r' || c = '\x0b' || c = '\x0c'

/-- The pairing loop of `bytes.fromhex` (Python ≥ 3.7): whitespace is
skipped before each two-digit byte pair but not between the two digits of a
pair; any other non-digit character, or a lone trailing digit, is an
error. -/
def fromhexLoop : List Char → List Nat → Option (List Nat)
  | [], acc => some acc
  | c :: rest, acc =>
    if isWhite c then fromhexLoop rest acc
    else
      match hexVal c with
      | none => none
      | some top =>
        match rest with
        | [] => none
        | c2 :: rest2 =>
          match hexVal c2 with
          | none => none
          | some bot => fromhexLoop rest2 (acc ++ [top * 16 + bot])

/-- `bytes.fromhex` (the call at src/Code1.py line 375). -/
def fromHexPy (cs : List Char) : Option (List Nat) := fromhexLoop cs []

/-- The character class stripped by `str.strip()` with no argument: all
Unicode whitespace, which beyond the six C-locale ASCII whitespace
characters also covers the controls U+001C-U+001F, NEL (U+0085), NBSP
(U+00A0) and the Unicode space separators. -/
def isPyStrSpace (c : Char) : Bool :=
  decide ((0x9 ≤ c.toNat ∧ c.toNat ≤ 0xd) ∨ (0x1c ≤ c.toNat ∧ c.toNat ≤ 0x1f) ∨
    c.toNat = 0x20 ∨ c.toNat = 0x85 ∨ c.toNat = 0xa0 ∨ c.toNat = 0x1680 ∨
    (0x2000 ≤ c.toNat ∧ c.toNat ≤ 0x200a) ∨ c.toNat = 0x2028 ∨
    c.toNat = 0x2029 ∨ c.toNat = 0x202f ∨ c.toNat = 0x205f ∨
    c.toNat = 0x3000)

/-- Python `str.strip()` with no argument. -/
def stripL (cs : List Char) : List Char :=
  ((cs.dropWhile isPyStrSpace).reverse.dropWhile isPyStrSpace).reverse

/-- Classification of one received frame by the decode algorithm of
`_listen_for_messages`. -/
inductive DecodeOutcome where
  | malformed
  | badPayload
  | authFailed
  | authenticated (raw : List Nat)
  | plain
deriving DecidableEq

/-- The frame separator `"|HMAC:"`. -/
def sepHMAC : List Char := "|HMAC:".toList

/-- The payload marker `"MESSAGE:"`. -/
def msgTag : List Char := "MESSAGE:".toList

/-- The decode algorithm of `_listen_for_messages` (src/Code1.py lines
366-418): no `"|HMAC:"` separator means plain text; otherwise the left part
must start with `"MESSAGE:"` (else malformed); its remainder is
base64-decoded and the stripped right part hex-decoded, any failure of
either being a bad payload (the shared `except` block at line 407); finally
the received code is compared with `mac raw`. -/
def decodeFrame (mac : List Nat → List Nat) (s : List Char) : DecodeOutcome :=
  match splitOnce sepHMAC s with
  | none => .plain
  | some (payloadPart, hmacPart) =>
    if msgTag.isPrefixOf payloadPart then
      match b64decodePy (payloadPart.drop 8) with
      | none => .badPayload
      | some raw =>
        match fromHexPy (stripL hmacPart) with
        | none => .badPayload
        | some macReceived =>
          if mac raw = macReceived then .authenticated raw else .authFailed
    else .malformed

/-- One iteration of the receiver loop of `_listen_for_messages` on a
decoded text `s`: returns the new message log and the reply sent on the
connection.  Branch by branch this mirrors src/Code1.py lines 366-430;
only the plain-text fallback trims the log (lines 423-424). -/
def processMessage (mac : List Nat → List Nat) (tp : Teleporter)
    (rs : Nat → ShotSample) (ts errText fidLine : String)
    (log : List String) (s : List Char) : List String × String :=
  match decodeFrame mac s with
  | .malformed => (log ++ ["[" ++ ts ++ "] MALFORMED MESSAGE"], "MALFORMED")
  | .badPayload =>
      (log ++ ["[" ++ ts ++ "] Payload decode failed: " ++ errText],
       "BAD_PAYLOAD")
  | .authFailed =>
      (log ++ ["[" ++ ts ++ "] HMAC verification failed"], "AUTH_FAILED")
  | .authenticated raw =>
      let l1 := log ++ ["[" ++ ts ++ "] AUTH OK. Teleporting payload (" ++
        toString raw.length ++ " bytes)..."]
      match teleport_bytes tp rs raw with
      | .error e =>
          (l1 ++ ["[" ++ ts ++ "] Teleport error: " ++ e], "TELEPORT_FAILED")
      | .ok L =>
          let resp := "TELEPORT_RESULT: success=" ++ toString (succCount L) ++
            "/" ++ toString L.length ++ " backend=" ++ tp.backend_name
          (l1 ++ ["[" ++ ts ++ "] " ++ resp], resp)
  | .plain =>
      let l1 := log ++ ["[" ++ ts ++ "] REMOTE: " ++ String.mk s]
      (if l1.length > 8 then l1.drop 1 else l1, fidLine)

/-- The connection-event append of `_run_server` (src/Code1.py line 455),
which never trims the log. -/
def serverConnLog (log : List String) (addr : String) : List String :=
  log ++ ["UPLINK ESTABLISHED: " ++ addr]

/-- The initial message log set in `__init__` (src/Code1.py line 298). -/
def initialMsgLog : List String := ["SYSTEM READY...", "WAITING FOR UPLINK..."]

/-- A reply is one of the fixed classification tokens or a
`TELEPORT_RESULT` line. -/
def isFixedReply (r : String) : Prop :=
  r = "MALFORMED" ∨ r = "BAD_PAYLOAD" ∨ r = "AUTH_FAILED" ∨
  r = "TELEPORT_FAILED" ∨
  ∃ a b c, r = "TELEPORT_RESULT: success=" ++ a ++ "/" ++ b ++ " backend=" ++ c

/-- C2: for every received frame containing the separator `"|HMAC:"`, the
decode algorithm classifies it into exactly one outcome with the matching
fixed reply: a left part not starting with `"MESSAGE:"` is malformed (reply
`MALFORMED`); a base64 or hex decode failure is a bad payload (reply
`BAD_PAYLOAD`); an authentication-code mismatch against `mac raw` replies
`AUTH_FAILED`; a match invokes the pipeline and (with the backend
available) replies with the `TELEPORT_RESULT` line; and whatever the case
and backend state, the reply is a fixed token or a result line — never an
internal error text. -/
theorem decode_reply_classification
    (mac : List Nat → List Nat) (tp : Teleporter) (bn : String)
    (rs : Nat → ShotSample) (ts errText fidLine : String)
    (log : List String) (s payloadPart hmacPart : List Char)
    (hsplit : splitOnce sepHMAC s = some (payloadPart, hmacPart)) :
    (msgTag.isPrefixOf payloadPart = false →
      decodeFrame mac s = .malformed ∧
      (processMessage mac tp rs ts errText fidLine log s).2 = "MALFORMED") ∧
    (msgTag.isPrefixOf payloadPart = true →
      b64decodePy (payloadPart.drop 8) = none →
      decodeFrame mac s = .badPayload ∧
      (processMessage mac tp rs ts errText fidLine log s).2 = "BAD_PAYLOAD") ∧
    (∀ raw, msgTag.isPrefixOf payloadPart = true →
      b64decodePy (payloadPart.drop 8) = some raw →
      fromHexPy (stripL hmacPart) = none →
      decodeFrame mac s = .badPayload ∧
      (processMessage mac tp rs ts errText fidLine log s).2 = "BAD_PAYLOAD") ∧
    (∀ raw m, msgTag.isPrefixOf payloadPart = true →
      b64decodePy (payloadPart.drop 8) = some raw →
      fromHexPy (stripL hmacPart) = some m → mac raw ≠ m →
      decodeFrame mac s = .authFailed ∧
      (processMessage mac tp rs ts errText fidLine log s).2 = "AUTH_FAILED") ∧
    (∀ raw m, msgTag.isPrefixOf payloadPart = true →
      b64decodePy (payloadPart.drop 8) = some raw →
      fromHexPy (stripL hmacPart) = some m → mac raw = m →
      decodeFrame mac s = .authenticated raw ∧
      (processMessage mac ⟨some (), bn⟩ rs ts errText fidLine log s).2 =
        "TELEPORT_RESULT: success=" ++
          toString (succCount (expectedBitResults bn rs 0 (payloadBits raw))) ++
          "/" ++
          toString (expectedBitResults bn rs 0 (payloadBits raw)).length ++
          " backend=" ++ bn) ∧
    isFixedReply (processMessage mac tp rs ts errText fidLine log s).2 := by
  refine ⟨?_, ?_, ?_, ?_, ?_, ?_⟩
  · intro h
    have hd : decodeFrame mac s = .malformed := by
      simp [decodeFrame, hsplit, h]
    exact ⟨hd, by simp [processMessage, hd]⟩
  · intro h hb
    have hd : decodeFrame mac s = .badPayload := by
      simp [decodeFrame, hsplit, h, hb]
    exact ⟨hd, by simp [processMessage, hd]⟩
  · intro raw h hb hx
    have hd : decodeFrame mac s = .badPayload := by
      simp [decodeFrame, hsplit, h, hb, hx]
    exact ⟨hd, by simp [processMessage, hd]⟩
  · intro raw m h hb hx hne
    have hd : decodeFrame mac s = .authFailed := by
      simp [decodeFrame, hsplit, h, hb, hx, hne]
    exact ⟨hd, by simp [processMessage, hd]⟩
  · intro raw m h hb hx heq
    have hd : decodeFrame mac s = .authenticated raw := by
      simp [decodeFrame, hsplit, h, hb, hx, heq]
    refine ⟨hd, ?_⟩
    have htb : teleport_bytes ⟨some (), bn⟩ rs raw =
        .ok (expectedBitResults bn rs 0 (payloadBits raw)) := by
      rw [teleport_bytes, teleportByteLoop_ok]
      simp
    simp [processMessage, hd, htb]
  · by_cases h : msgTag.isPrefixOf payloadPart = true
    · cases hb : b64decodePy (payloadPart.drop 8) with
      | none =>
        have hd : decodeFrame mac s = .badPayload := by
          simp [decodeFrame, hsplit, h, hb]
        simp only [processMessage, hd]
        exact Or.inr (Or.inl rfl)
      | some raw =>
        cases hx : fromHexPy (stripL hmacPart) with
        | none =>
          have hd : decodeFrame mac s = .badPayload := by
            simp [decodeFrame, hsplit, h, hb, hx]
          simp only [processMessage, hd]
          exact Or.inr (Or.inl rfl)
        | some m =>
          by_cases heq : mac raw = m
          · have hd : decodeFrame mac s = .authenticated raw := by
              simp [decodeFrame, hsplit, h, hb, hx, heq]
            cases he : teleport_bytes tp rs raw with
            | error e =>
              simp only [processMessage, hd, he]
              exact Or.inr (Or.inr (Or.inr (Or.inl rfl)))
            | ok L =>
              simp only [processMessage, hd, he]
              exact Or.inr (Or.inr (Or.inr (Or.inr
                ⟨toString (succCount L), toString L.length, tp.backend_name,
                  rfl⟩)))
          · have hd : decodeFrame mac s = .authFailed := by
              simp [decodeFrame, hsplit, h, hb, hx, heq]
            simp only [processMessage, hd]
            exact Or.inr (Or.inr (Or.inl rfl))
    · have h' : msgTag.isPrefixOf payloadPart = false := by
        simp only [Bool.not_eq_true] at h
        exact h
      have hd : decodeFrame mac s = .malformed := by
        simp [decodeFrame, hsplit, h']
      simp only [processMessage, hd]
      exact Or.inl rfl

/-- Witness for `decode_reply_classification` at the concrete frame
`"X|HMAC:ab"`, whose left part does not start with `"MESSAGE:"`. -/
theorem decode_reply_classification_witness :
    (processMessage (fun _ => []) ⟨some (), "aer_simulator"⟩
      (fun _ => ⟨(false, false), false⟩) "t" "e" "f" []
      ("X|HMAC:ab".toList)).2 = "MALFORMED" := by
  have h := decode_reply_classification (fun _ => [])
    ⟨some (), "aer_simulator"⟩ "aer_simulator"
    (fun _ => ⟨(false, false), false⟩) "t" "e" "f" []
    ("X|HMAC:ab".toList) ['X'] "ab".toList (by decide)
  exact (h.1 (by decide)).2

/-! ## Section 4: the sender-side framing (codec round trip).

The repository contains only the decoding side: the interactive client of
src/Code2.py sends unframed text.  The encoder below is therefore
reconstructed from the spec's framing line, using the standard base64 and
lowercase-hex encoders that `base64.b64encode` and `.hex()` implement. -/

/-- `base64.b64encode` (RFC 4648): three bytes per four characters, with
terminal `=` padding. -/
def b64encode : List Nat → List Char
  | [] => []
  | [b1] => [b64Char (b1 / 4), b64Char (b1 % 4 * 16), '=', '=']
  | [b1, b2] => [b64Char (b1 / 4), b64Char (b1 % 4 * 16 + b2 / 16),
                 b64Char (b2 % 16 * 4), '=']
  | b1 :: b2 :: b3 :: rest =>
    b64Char (b1 / 4) :: b64Char (b1 % 4 * 16 + b2 / 16) ::
    b64Char (b2 % 16 * 4 + b3 / 64) :: b64Char (b3 % 64) :: b64encode rest

/-- Lowercase hexadecimal encoding of a byte string (`bytes.hex()` and
`hexdigest()`-style). -/
def toHex (bs : List Nat) : List Char :=
  bs.flatMap fun b => [hexDigit (b / 16), hexDigit (b % 16)]

/-- Modelled from the spec: the sender-side wire framing
`MESSAGE:<base64-payload>|HMAC:<hex-digest>` of spec section 4.3.  The
repository holds only the decoder, so the encoder is reconstructed from the
spec's framing line, with the same `mac` oracle standing for HMAC-SHA256
under the fixed pre-shared secret. -/
def encodeFrame (mac : List Nat → List Nat) (payload : List Nat) : List Char :=
  msgTag ++ b64encode payload ++ sepHMAC ++ toHex (mac payload)

/-- Flip bit `k` of byte `j` of a byte string: the single-bit corruption of
the transmitted authentication code considered by the spec. -/
def flipBit (bs : List Nat) (j k : Nat) : List Nat :=
  bs.set j (bs.getD j 0 ^^^ 2 ^ k)

lemma b64Val_b64Char_fin : ∀ v : Fin 64, b64Val (b64Char v.val) = some v.val := by
  decide

lemma isB64Char_b64Char_fin : ∀ v : Fin 64, isB64Char (b64Char v.val) = true := by
  decide

lemma b64Char_ne_pad_fin : ∀ v : Fin 64, b64Char v.val ≠ '=' := by decide

lemma b64Chars_ne_pipe : ∀ c ∈ b64Chars, c ≠ '|' := by decide

lemma b64Val_b64Char (v : Nat) (h : v < 64) : b64Val (b64Char v) = some v :=
  b64Val_b64Char_fin ⟨v, h⟩

lemma isB64Char_b64Char (v : Nat) (h : v < 64) : isB64Char (b64Char v) = true :=
  isB64Char_b64Char_fin ⟨v, h⟩

lemma b64Char_ne_pad (v : Nat) (h : v < 64) : b64Char v ≠ '=' :=
  b64Char_ne_pad_fin ⟨v, h⟩

lemma isB64Char_ne_pipe (c : Char) (h : isB64Char c = true) : c ≠ '|' := by
  have hm : c ∈ b64Chars := by
    simpa [isB64Char] using h
  exact b64Chars_ne_pipe c hm

lemma hexVal_hexDigit_fin : ∀ v : Fin 16, hexVal (hexDigit v.val) = some v.val := by
  decide

lemma hexDigit_not_white_fin : ∀ v : Fin 16, isWhite (hexDigit v.val) = false := by
  decide

lemma hexVal_hexDigit (v : Nat) (h : v < 16) : hexVal (hexDigit v) = some v :=
  hexVal_hexDigit_fin ⟨v, h⟩

lemma hexDigit_not_white (v : Nat) (h : v < 16) : isWhite (hexDigit v) = false :=
  hexDigit_not_white_fin ⟨v, h⟩

lemma hexDigit_not_pyspace_fin :
    ∀ v : Fin 16, isPyStrSpace (hexDigit v.val) = false := by
  decide

lemma hexDigit_not_pyspace (v : Nat) (h : v < 16) :
    isPyStrSpace (hexDigit v) = false :=
  hexDigit_not_pyspace_fin ⟨v, h⟩

lemma msgTag_ne_pipe : ∀ c ∈ msgTag, c ≠ '|' := by decide

lemma b64encode_mem : ∀ (P : List Nat), (∀ b ∈ P, b < 256) →
    ∀ c ∈ b64encode P, (isB64Char c || c = '=') = true
  | [], _, c, hc => by simp [b64encode] at hc
  | [b1], hP, c, hc => by
    have h1 : b1 < 256 := hP b1 (by simp)
    simp only [b64encode, List.mem_cons, List.not_mem_nil, or_false] at hc
    rcases hc with h | h | h | h <;> subst h
    · simp [isB64Char_b64Char (b1 / 4) (by omega)]
    · simp [isB64Char_b64Char (b1 % 4 * 16) (by omega)]
    · decide
    · decide
  | [b1, b2], hP, c, hc => by
    have h1 : b1 < 256 := hP b1 (by simp)
    have h2 : b2 < 256 := hP b2 (by simp)
    simp only [b64encode, List.mem_cons, List.not_mem_nil, or_false] at hc
    rcases hc with h | h | h | h <;> subst h
    · simp [isB64Char_b64Char (b1 / 4) (by omega)]
    · simp [isB64Char_b64Char (b1 % 4 * 16 + b2 / 16) (by omega)]
    · simp [isB64Char_b64Char (b2 % 16 * 4) (by omega)]
    · decide
  | b1 :: b2 :: b3 :: rest, hP, c, hc => by
    have h1 : b1 < 256 := hP b1 (by simp)
    have h2 : b2 < 256 := hP b2 (by simp)
    have h3 : b3 < 256 := hP b3 (by simp)
    have ih := b64encode_mem rest (fun b hb => hP b (by simp [hb]))
    simp only [b64encode, List.mem_cons] at hc
    rcases hc with h | h | h | h | h
    · subst h; simp [isB64Char_b64Char (b1 / 4) (by omega)]
    · subst h; simp [isB64Char_b64Char (b1 % 4 * 16 + b2 / 16) (by omega)]
    · subst h; simp [isB64Char_b64Char (b2 % 16 * 4 + b3 / 64) (by omega)]
    · subst h; simp [isB64Char_b64Char (b3 % 64) (by omega)]
    · exact ih c h

lemma a2b_encode : ∀ (P : List Nat), (∀ b ∈ P, b < 256) →
    ∀ acc, a2bBase64Loop (b64encode P) 0 0 0 acc = some (acc ++ P)
  | [], _, acc => by simp [b64encode, a2bBase64Loop]
  | [b1], hP, acc => by
    have h1 : b1 < 256 := hP b1 (by simp)
    have e1 : b64Val (b64Char (b1 / 4)) = some (b1 / 4) :=
      b64Val_b64Char _ (by omega)
    have e2 : b64Val (b64Char (b1 % 4 * 16)) = some (b1 % 4 * 16) :=
      b64Val_b64Char _ (by omega)
    have n1 : b64Char (b1 / 4) ≠ '=' := b64Char_ne_pad _ (by omega)
    have n2 : b64Char (b1 % 4 * 16) ≠ '=' := b64Char_ne_pad _ (by omega)
    simp [b64encode, a2bBase64Loop, e1, e2, n1, n2]
    omega
  | [b1, b2], hP, acc => by
    have h1 : b1 < 256 := hP b1 (by simp)
    have h2 : b2 < 256 := hP b2 (by simp)
    have e1 : b64Val (b64Char (b1 / 4)) = some (b1 / 4) :=
      b64Val_b64Char _ (by omega)
    have e2 : b64Val (b64Char (b1 % 4 * 16 + b2 / 16)) =
        some (b1 % 4 * 16 + b2 / 16) := b64Val_b64Char _ (by omega)
    have e3 : b64Val (b64Char (b2 % 16 * 4)) = some (b2 % 16 * 4) :=
      b64Val_b64Char _ (by omega)
    have n1 : b64Char (b1 / 4) ≠ '=' := b64Char_ne_pad _ (by omega)
    have n2 : b64Char (b1 % 4 * 16 + b2 / 16) ≠ '=' :=
      b64Char_ne_pad _ (by omega)
    have n3 : b64Char (b2 % 16 * 4) ≠ '=' := b64Char_ne_pad _ (by omega)
    simp [b64encode, a2bBase64Loop, e1, e2, e3, n1, n2, n3]
    omega
  | b1 :: b2 :: b3 :: rest, hP, acc => by
    have h1 : b1 < 256 := hP b1 (by simp)
    have h2 : b2 < 256 := hP b2 (by simp)
    have h3 : b3 < 256 := hP b3 (by simp)
    have ih := a2b_encode rest (fun b hb => hP b (by simp [hb]))
    have e1 : b64Val (b64Char (b1 / 4)) = some (b1 / 4) :=
      b64Val_b64Char _ (by omega)
    have e2 : b64Val (b64Char (b1 % 4 * 16 + b2 / 16)) =
        some (b1 % 4 * 16 + b2 / 16) := b64Val_b64Char _ (by omega)
    have e3 : b64Val (b64Char (b2 % 16 * 4 + b3 / 64)) =
        some (b2 % 16 * 4 + b3 / 64) := b64Val_b64Char _ (by omega)
    have e4 : b64Val (b64Char (b3 % 64)) = some (b3 % 64) :=
      b64Val_b64Char _ (by omega)
    have n1 : b64Char (b1 / 4) ≠ '=' := b64Char_ne_pad _ (by omega)
    have n2 : b64Char (b1 % 4 * 16 + b2 / 16) ≠ '=' :=
      b64Char_ne_pad _ (by omega)
    have n3 : b64Char (b2 % 16 * 4 + b3 / 64) ≠ '=' :=
      b64Char_ne_pad _ (by omega)
    have n4 : b64Char (b3 % 64) ≠ '=' := b64Char_ne_pad _ (by omega)
    have hx : (b1 / 4 * 64 + (b1 % 4 * 16 + b2 / 16)) / 16 = b1 := by omega
    have hx2 : (b1 / 4 * 64 + (b1 % 4 * 16 + b2 / 16)) % 16 = b2 / 16 := by
      omega
    have hy : (b2 / 16 * 64 + (b2 % 16 * 4 + b3 / 64)) / 4 = b2 := by omega
    have hy2 : (b2 / 16 * 64 + (b2 % 16 * 4 + b3 / 64)) % 4 = b3 / 64 := by
      omega
    have hz : b3 / 64 * 64 + b3 % 64 = b3 := by omega
    simp only [b64encode, a2bBase64Loop, e1, e2, e3, e4, if_neg n1, if_neg n2,
      if_neg n3, if_neg n4, hx, hx2, hy, hy2, hz]
    rw [ih]
    simp

lemma b64encode_ascii (P : List Nat) (hP : ∀ b ∈ P, b < 256) :
    (b64encode P).all (fun c => decide (c.toNat < 128)) = true := by
  rw [List.all_eq_true]
  intro c hc
  rcases Bool.or_eq_true_iff.mp (b64encode_mem P hP c hc) with h1 | h1
  · have hm : c ∈ b64Chars := by simpa [isB64Char] using h1
    have hall : ∀ x ∈ b64Chars, x.toNat < 128 := by decide
    simpa using hall c hm
  · have hce : c = '=' := by simpa using h1
    subst hce
    decide

lemma b64decodePy_encode (P : List Nat) (hP : ∀ b ∈ P, b < 256) :
    b64decodePy (b64encode P) = some P := by
  rw [b64decodePy, if_pos (b64encode_ascii P hP), a2b_encode P hP []]
  simp

lemma toHex_cons (b : Nat) (rest : List Nat) :
    toHex (b :: rest) = hexDigit (b / 16) :: hexDigit (b % 16) :: toHex rest := by
  simp [toHex]

lemma fromhexLoop_toHex : ∀ (m : List Nat), (∀ b ∈ m, b < 256) →
    ∀ acc, fromhexLoop (toHex m) acc = some (acc ++ m)
  | [], _, acc => by simp [toHex, fromhexLoop]
  | b :: rest, hm, acc => by
    have hb : b < 256 := hm b (by simp)
    have e1 : hexVal (hexDigit (b / 16)) = some (b / 16) :=
      hexVal_hexDigit _ (by omega)
    have e2 : hexVal (hexDigit (b % 16)) = some (b % 16) :=
      hexVal_hexDigit _ (by omega)
    have w1 : isWhite (hexDigit (b / 16)) = false :=
      hexDigit_not_white _ (by omega)
    have ih := fromhexLoop_toHex rest (fun x hx => hm x (by simp [hx]))
    have hbeq : b / 16 * 16 + b % 16 = b := by omega
    rw [toHex_cons]
    simp only [fromhexLoop, w1, Bool.false_eq_true, if_false, e1, e2, hbeq, ih]
    simp

lemma toHex_no_pyspace : ∀ (m : List Nat), (∀ b ∈ m, b < 256) →
    ∀ c ∈ toHex m, isPyStrSpace c = false
  | [], _, c, hc => by simp [toHex] at hc
  | b :: rest, hm, c, hc => by
    have hb : b < 256 := hm b (by simp)
    have ih := toHex_no_pyspace rest (fun x hx => hm x (by simp [hx]))
    simp only [toHex, List.flatMap_cons, List.cons_append, List.mem_cons,
      List.nil_append] at hc
    rcases hc with h | h | h
    · subst h; exact hexDigit_not_pyspace _ (by omega)
    · subst h; exact hexDigit_not_pyspace _ (by omega)
    · exact ih c h

lemma fromHexPy_toHex (m : List Nat) (hm : ∀ b ∈ m, b < 256) :
    fromHexPy (toHex m) = some m := by
  rw [fromHexPy, fromhexLoop_toHex m hm []]
  simp

lemma dropWhile_eq_self_of_all (p : Char → Bool) (xs : List Char)
    (h : ∀ c ∈ xs, p c = false) : xs.dropWhile p = xs := by
  cases xs with
  | nil => rfl
  | cons a as => simp [List.dropWhile_cons, h a (by simp)]

lemma stripL_eq_self (xs : List Char) (h : ∀ c ∈ xs, isPyStrSpace c = false) :
    stripL xs = xs := by
  unfold stripL
  rw [dropWhile_eq_self_of_all _ _ h,
    dropWhile_eq_self_of_all _ _ (fun c hc => h c (List.mem_reverse.mp hc)),
    List.reverse_reverse]

lemma b64decodePy_nonstrict_cases :
    b64decodePy "AAAA=".toList = some [0, 0, 0] ∧
    b64decodePy "=AAAA".toList = some [0, 0, 0] ∧
    b64decodePy "AA=AA=".toList = some [0, 0, 0] ∧
    b64decodePy "AA==XYZ".toList = some [0] ∧
    b64decodePy "AAA=".toList = some [0, 0] ∧
    b64decodePy "AA==".toList = some [0] ∧
    b64decodePy "AAA".toList = none ∧
    b64decodePy "AA=".toList = none ∧
    b64decodePy "AA=A".toList = none := by
  decide

lemma fromHexPy_whitespace_cases :
    fromHexPy "ab cd".toList = some [171, 205] ∧
    fromHexPy " abcd ".toList = some [171, 205] ∧
    fromHexPy "a bc d".toList = none ∧
    fromHexPy "abc d".toList = none ∧
    fromHexPy "abc".toList = none := by
  decide

lemma stripL_unicode_cases :
    stripL "\x1cab\x85".toList = "ab".toList ∧
    stripL "\xa0ab ".toList = "ab".toList ∧
    stripL " ab\t".toList = "ab".toList := by
  decide

lemma decodeFrame_dangling_pad :
    decodeFrame (fun _ => []) "MESSAGE:AAAA=|HMAC:00".toList =
      .authFailed := by
  decide

lemma isPrefixOf_append_self : ∀ (p t : List Char), p.isPrefixOf (p ++ t) = true
  | [], _ => by simp [List.isPrefixOf]
  | a :: as, t => by simp [List.isPrefixOf, isPrefixOf_append_self as t]

lemma splitOnce_self_append (c : Char) (cs ys : List Char) :
    splitOnce (c :: cs) ((c :: cs) ++ ys) = some ([], ys) := by
  show splitOnce (c :: cs) (c :: (cs ++ ys)) = some ([], ys)
  rw [splitOnce]
  rw [if_pos (by simp [isPrefixOf_append_self (c :: cs) ys])]
  have hd : (c :: (cs ++ ys)).drop (c :: cs).length = ys := by
    simp [List.drop_left (c :: cs) ys]
  rw [hd]

lemma splitOnce_at : ∀ (xs ys : List Char), (∀ c ∈ xs, c ≠ '|') →
    splitOnce sepHMAC (xs ++ (sepHMAC ++ ys)) = some (xs, ys)
  | [], ys, _ => by
    rw [List.nil_append]
    exact splitOnce_self_append '|' "HMAC:".toList ys
  | x :: xs, ys, h => by
    have hx : x ≠ '|' := h x (by simp)
    have ih := splitOnce_at xs ys (fun c hc => h c (by simp [hc]))
    show splitOnce sepHMAC (x :: (xs ++ (sepHMAC ++ ys))) = some (x :: xs, ys)
    rw [splitOnce]
    have hpre : sepHMAC.isPrefixOf (x :: (xs ++ (sepHMAC ++ ys))) = false := by
      show (('|' :: "HMAC:".toList).isPrefixOf (x :: (xs ++ (sepHMAC ++ ys)))) =
        false
      have hbe : ('|' == x) = false := beq_eq_false_iff_ne.mpr (Ne.symm hx)
      simp [List.isPrefixOf, hbe]
    rw [hpre]
    simp only [Bool.false_eq_true, if_false, ih]

lemma encode_left_no_pipe (P : List Nat) (hP : ∀ b ∈ P, b < 256) :
    ∀ c ∈ msgTag ++ b64encode P, c ≠ '|' := by
  intro c hc
  rcases List.mem_append.mp hc with h | h
  · exact msgTag_ne_pipe c h
  · have hor := b64encode_mem P hP c h
    rcases (Bool.or_eq_true _ _).mp hor with h1 | h1
    · exact isB64Char_ne_pipe c h1
    · have hpad : c = '=' := by simpa using h1
      subst hpad
      decide

lemma splitOnce_encodeFrame (P code : List Nat) (hP : ∀ b ∈ P, b < 256) :
    splitOnce sepHMAC (msgTag ++ b64encode P ++ sepHMAC ++ toHex code) =
      some (msgTag ++ b64encode P, toHex code) := by
  have h := splitOnce_at (msgTag ++ b64encode P) (toHex code)
    (encode_left_no_pipe P hP)
  simpa [List.append_assoc] using h

lemma flipBit_lt (bs : List Nat) (j k : Nat) (hb : ∀ b ∈ bs, b < 256)
    (hk : k < 8) : ∀ b ∈ flipBit bs j k, b < 256 := by
  intro b hmem
  rcases List.mem_or_eq_of_mem_set hmem with h | h
  · exact hb b h
  · subst h
    have h1 : bs.getD j 0 < 256 := by
      by_cases hj : j < bs.length
      · rw [List.getD_eq_getElem bs 0 hj]
        exact hb _ (List.getElem_mem hj)
      · rw [List.getD_eq_default bs 0 (by omega)]
        norm_num
    have h2 : (2 : ℕ) ^ k < 256 := by
      calc (2 : ℕ) ^ k ≤ 2 ^ 7 := Nat.pow_le_pow_right (by norm_num) (by omega)
        _ < 256 := by norm_num
    have h256 : (256 : ℕ) = 2 ^ 8 := by norm_num
    rw [h256] at h1 h2 ⊢
    exact Nat.xor_lt_two_pow h1 h2

lemma flipBit_ne (bs : List Nat) (j k : Nat) (hj : j < bs.length) :
    flipBit bs j k ≠ bs := by
  intro heq
  have hgd : (flipBit bs j k).getD j 0 = bs.getD j 0 := by rw [heq]
  have hlen : j < (flipBit bs j k).length := by simpa [flipBit] using hj
  have hset : (flipBit bs j k).getD j 0 = bs.getD j 0 ^^^ 2 ^ k := by
    rw [List.getD_eq_getElem _ _ hlen]
    simp [flipBit, List.getElem_set_self]
  have hx : bs.getD j 0 ^^^ 2 ^ k = bs.getD j 0 := by rw [← hset, hgd]
  have h2 := congrArg (fun t => bs.getD j 0 ^^^ t) hx
  simp only at h2
  rw [← Nat.xor_assoc, Nat.xor_self, Nat.zero_xor] at h2
  exact (pow_pos (by norm_num : (0 : ℕ) < 2) k).ne' h2

/-- C6: for the fixed pre-shared secret and every byte payload `P`, decoding
the frame `MESSAGE:<base64(P)>|HMAC:<hex(mac P)>` yields
`Authenticated P`; and flipping any single bit of the transmitted
authentication code (bit `k` of code byte `j`, the code being what the hex
field transmits) makes decoding yield `AuthFailed`. -/
theorem encode_decode_roundtrip_and_flip
    (mac : List Nat → List Nat) (P : List Nat)
    (hP : ∀ b ∈ P, b < 256) (hm : ∀ b ∈ mac P, b < 256) :
    decodeFrame mac (encodeFrame mac P) = .authenticated P ∧
    ∀ j k, j < (mac P).length → k < 8 →
      decodeFrame mac (msgTag ++ b64encode P ++ sepHMAC ++
        toHex (flipBit (mac P) j k)) = .authFailed := by
  have hpre : msgTag.isPrefixOf (msgTag ++ b64encode P) = true :=
    isPrefixOf_append_self msgTag (b64encode P)
  have hdrop : (msgTag ++ b64encode P).drop 8 = b64encode P := by
    have h8 : (8 : ℕ) = msgTag.length := rfl
    rw [h8, List.drop_left]
  constructor
  · have hsplit := splitOnce_encodeFrame P (mac P) hP
    have hstrip : stripL (toHex (mac P)) = toHex (mac P) :=
      stripL_eq_self _ (toHex_no_pyspace (mac P) hm)
    simp only [decodeFrame, encodeFrame, hsplit, hpre, hdrop,
      b64decodePy_encode P hP, hstrip, fromHexPy_toHex (mac P) hm]
    simp
  · intro j k hj hk
    have hflt := flipBit_lt (mac P) j k hm hk
    have hsplit := splitOnce_encodeFrame P (flipBit (mac P) j k) hP
    have hstrip : stripL (toHex (flipBit (mac P) j k)) =
        toHex (flipBit (mac P) j k) :=
      stripL_eq_self _ (toHex_no_pyspace _ hflt)
    have hne : mac P ≠ flipBit (mac P) j k := (flipBit_ne (mac P) j k hj).symm
    simp only [decodeFrame, hsplit, hpre, hdrop,
      b64decodePy_encode P hP, hstrip, fromHexPy_toHex _ hflt]
    simp [hne]

/-- Witness for `encode_decode_roundtrip_and_flip` at the one-byte payload
`[1]` with a constant one-byte authentication code. -/
theorem encode_decode_roundtrip_and_flip_witness :
    decodeFrame (fun _ => [0]) (encodeFrame (fun _ => [0]) [1]) =
      .authenticated [1] ∧
    decodeFrame (fun _ => [0]) (msgTag ++ b64encode [1] ++ sepHMAC ++
      toHex (flipBit [0] 0 0)) = .authFailed := by
  have h := encode_decode_roundtrip_and_flip (fun _ => [0]) [1]
    (by decide) (by decide)
  exact ⟨h.1, h.2 0 0 (by decide) (by decide)⟩

/-- C7 (amended): only the plain-text fallback branch of
`_listen_for_messages` trims the message log (src/Code1.py lines 423-424):
one plain-text append keeps a log of at most 8 entries at most 8 entries
long, evicting at most the single oldest entry; the malformed-message
append (line 414) and the connection-event append of `_run_server`
(line 455) extend the log unconditionally. -/
theorem msg_log_trim_only_plain
    (mac : List Nat → List Nat) (tp : Teleporter) (rs : Nat → ShotSample)
    (ts errText fidLine addr : String) (log : List String) (s : List Char) :
    (decodeFrame mac s = .plain → log.length ≤ 8 →
      (processMessage mac tp rs ts errText fidLine log s).1.length ≤ 8 ∧
      ((processMessage mac tp rs ts errText fidLine log s).1 =
          log ++ ["[" ++ ts ++ "] REMOTE: " ++ String.mk s] ∨
        (processMessage mac tp rs ts errText fidLine log s).1 =
          log.drop 1 ++ ["[" ++ ts ++ "] REMOTE: " ++ String.mk s])) ∧
    (decodeFrame mac s = .malformed →
      (processMessage mac tp rs ts errText fidLine log s).1 =
        log ++ ["[" ++ ts ++ "] MALFORMED MESSAGE"]) ∧
    serverConnLog log addr = log ++ ["UPLINK ESTABLISHED: " ++ addr] := by
  refine ⟨?_, ?_, rfl⟩
  · intro hplain hlen
    simp only [processMessage, hplain]
    by_cases h9 : (log ++ ["[" ++ ts ++ "] REMOTE: " ++ String.mk s]).length > 8
    · rw [if_pos h9]
      constructor
      · simp only [List.length_drop, List.length_append, List.length_cons,
          List.length_nil]
        omega
      · right
        have hne : 1 ≤ log.length := by
          simp only [List.length_append, List.length_cons, List.length_nil]
            at h9
          omega
        exact List.drop_append_of_le_length hne
    · rw [if_neg h9]
      constructor
      · simp only [List.length_append, List.length_cons, List.length_nil]
          at h9 ⊢
        omega
      · left
        rfl
  · intro hmal
    simp only [processMessage, hmal]

/-- Witness for `msg_log_trim_only_plain`: a plain-text message arriving on
a full 8-entry log leaves the log at 8 entries. -/
theorem msg_log_trim_only_plain_witness :
    (processMessage (fun _ => []) ⟨some (), "aer_simulator"⟩
      (fun _ => ⟨(false, false), false⟩) "t" "e" "f"
      ["1", "2", "3", "4", "5", "6", "7", "8"] ("hi".toList)).1.length ≤ 8 := by
  have h := msg_log_trim_only_plain (fun _ => []) ⟨some (), "aer_simulator"⟩
    (fun _ => ⟨(false, false), false⟩) "t" "e" "f" "addr"
    ["1", "2", "3", "4", "5", "6", "7", "8"] ("hi".toList)
  exact (h.1 (by decide) (by decide)).1

/-- Counterexample to C7 as stated: seven malformed frames received on the
initial two-entry log leave the log at nine entries, because the
malformed-message append never trims. -/
theorem msg_log_exceeds_eight :
    ((fun log => (processMessage (fun _ => []) ⟨some (), "aer_simulator"⟩
        (fun _ => ⟨(false, false), false⟩) "t" "e" "f" log
        ("X|HMAC:ab".toList)).1)^[7] initialMsgLog).length = 9 ∧
      ¬ (9 ≤ 8) := by
  constructor
  · decide
  · decide

/-- C9 (amended): with the backend unavailable and a nonempty payload, the
pipeline raises before teleporting any bit (no partial per-bit results
exist) and the peer receives exactly `TELEPORT_FAILED`. -/
theorem backend_unavailable_fails_fast
    (bn : String) (rs : Nat → ShotSample) (data : List Nat)
    (mac : List Nat → List Nat) (ts errText fidLine : String)
    (log : List String) (s : List Char)
    (hdata : data ≠ [])
    (hdec : decodeFrame mac s = .authenticated data) :
    teleport_bytes ⟨none, bn⟩ rs data =
      .error "No quantum backend available for teleportation" ∧
    (processMessage mac ⟨none, bn⟩ rs ts errText fidLine log s).2 =
      "TELEPORT_FAILED" := by
  have herr : teleport_bytes ⟨none, bn⟩ rs data =
      .error "No quantum backend available for teleportation" := by
    cases data with
    | nil => exact absurd rfl hdata
    | cons byte rest => rfl
  refine ⟨herr, ?_⟩
  simp only [processMessage, hdec, herr]

/-- Witness for `backend_unavailable_fails_fast` at the one-byte payload
`[1]` carried by the frame `"MESSAGE:AQ==|HMAC:"` with a constant empty
authentication code. -/
theorem backend_unavailable_fails_fast_witness :
    teleport_bytes ⟨none, "aer_simulator"⟩
      (fun _ => ⟨(false, false), false⟩) [1] =
      .error "No quantum backend available for teleportation" ∧
    (processMessage (fun _ => []) ⟨none, "aer_simulator"⟩
      (fun _ => ⟨(false, false), false⟩) "t" "e" "f" []
      ("MESSAGE:AQ==|HMAC:".toList)).2 = "TELEPORT_FAILED" :=
  backend_unavailable_fails_fast "aer_simulator"
    (fun _ => ⟨(false, false), false⟩) [1] (fun _ => []) "t" "e" "f" []
    ("MESSAGE:AQ==|HMAC:".toList) (by decide) (by decide)

/-- Counterexample to C9 as stated: an authenticated *empty* payload with
the backend unavailable does not fail — the loop body never runs, the
pipeline returns zero results, and the peer receives a
`TELEPORT_RESULT: success=0/0` line rather than `TELEPORT_FAILED`. -/
theorem backend_unavailable_empty_payload_result_line :
    teleport_bytes ⟨none, "aer_simulator"⟩
      (fun _ => ⟨(false, false), false⟩) [] = .ok [] ∧
    (processMessage (fun _ => []) ⟨none, "aer_simulator"⟩
      (fun _ => ⟨(false, false), false⟩) "t" "e" "f" []
      ("MESSAGE:|HMAC:".toList)).2 =
      "TELEPORT_RESULT: success=0/0 backend=aer_simulator" ∧
    "TELEPORT_RESULT: success=0/0 backend=aer_simulator" ≠
      "TELEPORT_FAILED" := by
  refine ⟨rfl, ?_, by decide⟩
  decide

/-! ## Section 5: the grounding state machines.

`HelloFriendEntropy` exists in two variants: the duplex-link variant of
src/Code1.py (scan bound 100, converge label `"GROUNDING: 0,1 -- 1,0"`,
mix divisor 100, with a search sub-mode resampling every 10th tick) and the
horizon variant of src/Code3.py (scan bound 120, converge label
`"HORIZON: 2^{80}"`, mix divisor 120, no search-mode evolution).  Both are
embedded over the same record of scan-relevant fields; the purely visual
and audio fields (`angle_y`, `stars`, `matrix_rain`, `current_complexity`,
mixer channels) belong to the excluded display layer and are omitted.

The quantum state is a two-qubit state: a ket is stored by the rational
coordinates of its ray (`qt.rand_ket` values come from an oracle, and the
target `(|01⟩ - |10⟩)/√2` is the ray through (0, 1, -1, 0)), and `density`
is `.proj()` of the normalised ket — the outer product divided by the
squared norm — or the stored density matrix itself, matching the
`self.current_state.proj() if self.current_state.isket else
self.current_state` dispatch.  `qt.fidelity` is a library function and
enters as the oracle `fid`. -/

/-- A 4x4 rational matrix: the density matrix of the simulated two-qubit
pair (complex phases are abstracted away; every update the machines perform
is a real convex combination). -/
abbrev Mat4 := Fin 4 → Fin 4 → ℚ

/-- A qutip state: either a ket (by ray coordinates) or a density matrix. -/
inductive QState where
  | ket (v : Fin 4 → ℚ)
  | dm (m : Mat4)
deriving DecidableEq

/-- `state.proj() if state.isket else state` (src/Code1.py line 498). -/
def density : QState → Mat4
  | .ket v => fun i j =>
      v i * v j / (Finset.sum Finset.univ fun k => v k * v k)
  | .dm m => m

/-- The fixed target `(qt.tensor(ket0, ket1) - qt.tensor(ket1, ket0)).unit()`
stored by ray coordinates (0, 1, -1, 0). -/
def targetState : QState :=
  .ket fun i => if i = 1 then 1 else if i = 2 then -1 else 0

/-- `(1 - mix) * dm_curr + mix * dm_targ` (src/Code1.py line 501,
src/Code3.py line 124). -/
def mixDM (c : ℚ) (A B : Mat4) : Mat4 :=
  fun i j => (1 - c) * A i j + c * B i j

/-- The scan-relevant state of `HelloFriendEntropy`. -/
structure GroundingState where
  protocol : String
  status_msg : String
  access_granted : Bool
  is_scanning : Bool
  scan_timer : Nat
  entropy_control : ℚ
  grounding_level : Nat
  fidelity : ℚ
  current_state : QState
deriving DecidableEq

/-- The converge-mode label of the horizon variant,
`f"HORIZON: 2^{{80}}"`. -/
def horizonLabel : String := "HORIZON: 2^\x7b80\x7d"

/-- The converge-mode label of the duplex variant. -/
def groundingLabel : String := "GROUNDING: 0,1 -- 1,0"

/-- Initial state of the horizon variant (src/Code3.py lines 48-69). -/
def init3 (initState : QState) : GroundingState :=
  { protocol := "INIT: 0", status_msg := "SYSTEM: IDLE",
    access_granted := false, is_scanning := false, scan_timer := 0,
    entropy_control := 1/10, grounding_level := 0, fidelity := 0,
    current_state := initState }

/-- `cycle_protocol` of the horizon variant (src/Code3.py lines 86-106);
`fresh` is the `qt.tensor(qt.rand_ket(2), qt.rand_ket(2))` sample drawn in
the else-branch. -/
def cycle_protocol3 (fresh : QState) (s : GroundingState) : GroundingState :=
  if s.is_scanning then s
  else
    let s1 :=
      if s.protocol = "INIT: 0" then
        { s with protocol := horizonLabel,
                 status_msg := "CALCULATING PROBABILITY SPACE..." }
      else
        { s with protocol := "INIT: 0", status_msg := "SYSTEM: IDLE",
                 current_state := fresh }
    { s1 with is_scanning := true, access_granted := false, scan_timer := 0,
              entropy_control := 1/10, grounding_level := 0, fidelity := 0 }

/-- `check_clearance` of the horizon variant (src/Code3.py lines 143-160);
the audio channel calls are display-layer and omitted. -/
def check_clearance3 (s : GroundingState) : GroundingState :=
  if s.fidelity > 19/20 then
    { s with grounding_level := 2, access_granted := true,
             entropy_control := 1,
             status_msg := "HORIZON REACHED. COLLAPSED." }
  else
    { s with grounding_level := 0, access_granted := false,
             entropy_control := 1/10, status_msg := "COMPUTATIONAL FAILURE" }

/-- `update` of the horizon variant (src/Code3.py lines 108-130): while
scanning, increment the timer; in converge mode every 5th tick mix toward
the target with `mix = min(1, timer/120)` and republish the recomputed
fidelity as the entropy-control signal; past 120 ticks evaluate clearance
and stop scanning. -/
def update3 (fid : QState → QState → ℚ) (s : GroundingState) :
    GroundingState :=
  if s.is_scanning then
    let t := s.scan_timer + 1
    let s1 :=
      if s.protocol = horizonLabel then
        if t % 5 = 0 then
          let newdm := mixDM (min 1 ((t : ℚ) / 120))
            (density s.current_state) (density targetState)
          let f := fid (.dm newdm) targetState
          { s with current_state := .dm newdm, fidelity := f,
                   entropy_control := f }
        else s
      else s
    let s2 := { s1 with scan_timer := t }
    if t > 120 then { check_clearance3 s2 with is_scanning := false }
    else s2
  else s

/-- Initial state of the duplex variant (src/Code1.py lines 287-305). -/
def init1 (initState : QState) : GroundingState :=
  { protocol := "INIT: 0,0", status_msg := "SYSTEM: UNGROUNDED",
    access_granted := false, is_scanning := false, scan_timer := 0,
    entropy_control := 1/10, grounding_level := 0, fidelity := 0,
    current_state := initState }

/-- `cycle_protocol` of the duplex variant (src/Code1.py lines 474-490).
Note the else-branch writes `"INIT: 0,1"`, not the initial `"INIT: 0,0"`. -/
def cycle_protocol1 (fresh : QState) (s : GroundingState) : GroundingState :=
  if s.is_scanning then s
  else
    let s1 :=
      if s.protocol = "INIT: 0,0" then
        { s with protocol := groundingLabel,
                 status_msg := "CALCULATING FIDELITY..." }
      else
        { s with protocol := "INIT: 0,1", status_msg := "SYSTEM: UNGROUNDED",
                 current_state := fresh }
    { s1 with is_scanning := true, access_granted := false, scan_timer := 0,
              entropy_control := 1/10, grounding_level := 0, fidelity := 0 }

/-- Modelled from the spec: `check_clearance` of the duplex variant is
truncated in src/Code1.py (line 513 collapses into the drawing code), so
its body is reconstructed from spec section 4.2: fidelity > 0.95 resolves
Granted (status set, access granted, level 2, entropy-control signal locked
at 1.0), else Denied (status reset, access revoked, level 0, signal
reverted to its idle value 0.1); the protocol label is untouched. -/
def check_clearance1 (s : GroundingState) : GroundingState :=
  if s.fidelity > 19/20 then
    { s with grounding_level := 2, access_granted := true,
             entropy_control := 1, status_msg := "SYSTEM: GROUNDED" }
  else
    { s with grounding_level := 0, access_granted := false,
             entropy_control := 1/10, status_msg := "SYSTEM: UNGROUNDED" }

/-- `update` of the duplex variant (src/Code1.py lines 492-510): converge
mode mixes with `mix = min(1, timer/100)` every 5th tick; search mode
resamples a fresh random state every 10th tick (fidelity recomputed,
entropy-control untouched); past 100 ticks clearance is evaluated and
scanning stops. -/
def update1 (fid : QState → QState → ℚ) (rand : Nat → QState)
    (s : GroundingState) : GroundingState :=
  if s.is_scanning then
    let t := s.scan_timer + 1
    let s1 :=
      if s.protocol = groundingLabel then
        if t % 5 = 0 then
          let newdm := mixDM (min 1 ((t : ℚ) / 100))
            (density s.current_state) (density targetState)
          let f := fid (.dm newdm) targetState
          { s with current_state := .dm newdm, fidelity := f,
                   entropy_control := f }
        else s
      else
        if t % 10 = 0 then
          { s with current_state := rand t,
                   fidelity := fid (rand t) targetState }
        else s
    let s2 := { s1 with scan_timer := t }
    if t > 100 then { check_clearance1 s2 with is_scanning := false }
    else s2
  else s

/-- C4: on the tick that carries the scan timer past the bound (120 in the
horizon variant) while scanning, the machine applies `check_clearance`
exactly once to the ticked state and leaves Scanning; fidelity > 0.95
resolves Granted (access granted, level 2, status set, entropy-control
locked at 1), else Denied (access revoked, level 0, status reset,
entropy-control reverted to 0.1); the fidelity, quantum state and protocol
label are untouched by that tick. -/
theorem clearance_at_scan_bound (fid : QState → QState → ℚ)
    (s : GroundingState) (hscan : s.is_scanning = true)
    (ht : s.scan_timer = 120) :
    update3 fid s =
      { check_clearance3 { s with scan_timer := 121 } with
          is_scanning := false } ∧
    (update3 fid s).is_scanning = false ∧
    (update3 fid s).scan_timer = 121 ∧
    (update3 fid s).fidelity = s.fidelity ∧
    (update3 fid s).current_state = s.current_state ∧
    (update3 fid s).protocol = s.protocol ∧
    (s.fidelity > 19/20 →
      (update3 fid s).access_granted = true ∧
      (update3 fid s).grounding_level = 2 ∧
      (update3 fid s).entropy_control = 1 ∧
      (update3 fid s).status_msg = "HORIZON REACHED. COLLAPSED.") ∧
    (¬ s.fidelity > 19/20 →
      (update3 fid s).access_granted = false ∧
      (update3 fid s).grounding_level = 0 ∧
      (update3 fid s).entropy_control = 1/10 ∧
      (update3 fid s).status_msg = "COMPUTATIONAL FAILURE") := by
  have h1 : update3 fid s =
      { check_clearance3 { s with scan_timer := 121 } with
          is_scanning := false } := by
    simp only [update3, hscan, ht, if_true]
    by_cases hp : s.protocol = horizonLabel <;> simp [hp, hscan]
  refine ⟨h1, ?_, ?_, ?_, ?_, ?_, ?_, ?_⟩ <;> rw [h1, check_clearance3] <;>
    (try intro hf) <;> split_ifs with hc <;>
      first
        | rfl
        | exact ⟨rfl, rfl, rfl, rfl⟩
        | exact absurd hf hc
        | exact absurd hc hf

/-- Witness for `clearance_at_scan_bound`: a scanning state at the bound
with fidelity 1 resolves Granted. -/
theorem clearance_at_scan_bound_witness :
    (update3 (fun _ _ => 0)
      { protocol := horizonLabel, status_msg := "x", access_granted := false,
        is_scanning := true, scan_timer := 120, entropy_control := 0,
        grounding_level := 0, fidelity := 1,
        current_state := .dm fun _ _ => 0 }).access_granted = true ∧
    (update3 (fun _ _ => 0)
      { protocol := horizonLabel, status_msg := "x", access_granted := false,
        is_scanning := true, scan_timer := 120, entropy_control := 0,
        grounding_level := 0, fidelity := 1,
        current_state := .dm fun _ _ => 0 }).grounding_level = 2 := by
  have h := clearance_at_scan_bound (fun _ _ => 0)
    { protocol := horizonLabel, status_msg := "x", access_granted := false,
      is_scanning := true, scan_timer := 120, entropy_control := 0,
      grounding_level := 0, fidelity := 1,
      current_state := .dm fun _ _ => 0 } rfl rfl
  have hg := h.2.2.2.2.2.2.1 (by norm_num)
  exact ⟨hg.1, hg.2.1⟩

/-- C5 (amended): while scanning in converge sub-mode, on every tick whose
incremented timer is a multiple of 5 — and on no other such tick — the
machine sets the mix fraction `min(1, timer/D)`, replaces the state by
`(1-mix)*density(current) + mix*density(target)`, recomputes the fidelity
against the target, and republishes that fidelity as the entropy-control
signal; the divisor `D` matches the variant's scan bound: 100 in the
duplex variant (`update1`), 120 in the horizon variant (`update3`). -/
theorem converge_mix_every_fifth_tick
    (fid : QState → QState → ℚ) (rand : Nat → QState) (s : GroundingState)
    (hscan : s.is_scanning = true) :
    (s.protocol = groundingLabel → s.scan_timer + 1 ≤ 100 →
      (((s.scan_timer + 1) % 5 = 0 →
        update1 fid rand s =
          { s with scan_timer := s.scan_timer + 1,
                   current_state := .dm (mixDM
                     (min 1 (((s.scan_timer + 1 : Nat) : ℚ) / 100))
                     (density s.current_state) (density targetState)),
                   fidelity := fid (.dm (mixDM
                     (min 1 (((s.scan_timer + 1 : Nat) : ℚ) / 100))
                     (density s.current_state) (density targetState)))
                     targetState,
                   entropy_control := fid (.dm (mixDM
                     (min 1 (((s.scan_timer + 1 : Nat) : ℚ) / 100))
                     (density s.current_state) (density targetState)))
                     targetState }) ∧
       ((s.scan_timer + 1) % 5 ≠ 0 →
        update1 fid rand s = { s with scan_timer := s.scan_timer + 1 }))) ∧
    (s.protocol = horizonLabel → s.scan_timer + 1 ≤ 120 →
      (((s.scan_timer + 1) % 5 = 0 →
        update3 fid s =
          { s with scan_timer := s.scan_timer + 1,
                   current_state := .dm (mixDM
                     (min 1 (((s.scan_timer + 1 : Nat) : ℚ) / 120))
                     (density s.current_state) (density targetState)),
                   fidelity := fid (.dm (mixDM
                     (min 1 (((s.scan_timer + 1 : Nat) : ℚ) / 120))
                     (density s.current_state) (density targetState)))
                     targetState,
                   entropy_control := fid (.dm (mixDM
                     (min 1 (((s.scan_timer + 1 : Nat) : ℚ) / 120))
                     (density s.current_state) (density targetState)))
                     targetState }) ∧
       ((s.scan_timer + 1) % 5 ≠ 0 →
        update3 fid s = { s with scan_timer := s.scan_timer + 1 }))) := by
  constructor
  · intro hp hb
    constructor
    · intro h5
      have hgt : ¬ (s.scan_timer + 1 > 100) := by omega
      simp [update1, hscan, hp, h5, hgt]
    · intro h5
      have hgt : ¬ (s.scan_timer + 1 > 100) := by omega
      have hpg : s.protocol = groundingLabel := hp
      simp [update1, hscan, hpg, h5, hgt]
  · intro hp hb
    constructor
    · intro h5
      have hgt : ¬ (s.scan_timer + 1 > 120) := by omega
      simp [update3, hscan, hp, h5, hgt]
    · intro h5
      have hgt : ¬ (s.scan_timer + 1 > 120) := by omega
      simp [update3, hscan, hp, h5, hgt]

/-- A concrete converge-mode scanning state of the duplex variant just
before the fifth tick. -/
def c5wstate : GroundingState :=
  { protocol := groundingLabel, status_msg := "x", access_granted := false,
    is_scanning := true, scan_timer := 4, entropy_control := 0,
    grounding_level := 0, fidelity := 0, current_state := .dm fun _ _ => 0 }

/-- Witness for `converge_mix_every_fifth_tick`: at the fifth tick the
duplex machine republishes the recomputed fidelity (here the oracle value
7/10) and advances the timer. -/
theorem converge_mix_every_fifth_tick_witness :
    (update1 (fun _ _ => (7 : ℚ)/10) (fun _ => QState.dm fun _ _ => 0)
      c5wstate).fidelity = 7/10 ∧
    (update1 (fun _ _ => (7 : ℚ)/10) (fun _ => QState.dm fun _ _ => 0)
      c5wstate).scan_timer = 5 := by
  have h := ((converge_mix_every_fifth_tick (fun _ _ => (7 : ℚ)/10)
    (fun _ => QState.dm fun _ _ => 0) c5wstate rfl).1 rfl
    (by decide)).1 (by decide)
  rw [h]
  exact ⟨rfl, rfl⟩

/-- A concrete converge-mode scanning state of the horizon variant just
before its twelfth mixing tick (timer 59, next tick 60). -/
def c5state : GroundingState :=
  { protocol := horizonLabel, status_msg := "x", access_granted := false,
    is_scanning := true, scan_timer := 59, entropy_control := 0,
    grounding_level := 0, fidelity := 0, current_state := .dm fun _ _ => 0 }

/-- Counterexample to C5 as stated: the horizon variant's mixing tick at
timer 60 uses `min(1, 60/120) = 1/2`, not the claimed `min(1, 60/100) =
3/5` — the two convex combinations differ at matrix entry (1,1)
(1/4 versus 3/10). -/
theorem horizon_mix_divisor_not_100 :
    (update3 (fun _ _ => 0) c5state).current_state ≠
      QState.dm (mixDM (min 1 ((60 : ℚ) / 100))
        (density c5state.current_state) (density targetState)) := by
  have hact : (update3 (fun _ _ => 0) c5state).current_state =
      QState.dm (mixDM (min 1 ((60 : ℚ) / 120))
        (density c5state.current_state) (density targetState)) := by
    norm_num [update3, c5state]
  rw [hact]
  intro h
  rw [QState.dm.injEq] at h
  have hc1 : min (1 : ℚ) (60/120) = 1/2 := by
    rw [show (60 : ℚ)/120 = 1/2 by norm_num]
    exact min_eq_right (by norm_num)
  have hc2 : min (1 : ℚ) (60/100) = 3/5 := by
    rw [show (60 : ℚ)/100 = 3/5 by norm_num]
    exact min_eq_right (by norm_num)
  rw [hc1, hc2] at h
  have h11 := congrFun (congrFun h 1) 1
  have hA : density c5state.current_state 1 1 = 0 := rfl
  have hB : density targetState 1 1 = 1/2 := by
    simp +decide [density, targetState, Fin.sum_univ_four]
    norm_num
  simp only [mixDM] at h11
  rw [hA, hB] at h11
  norm_num at h11

/-- Constant-zero fidelity oracle for concrete runs. -/
def fid0 : QState → QState → ℚ := fun _ _ => 0

/-- Constant random-state oracle for concrete runs. -/
def rand0 : Nat → QState := fun _ => .dm fun _ _ => 0

/-- A concrete initial quantum state for concrete runs. -/
def q0 : QState := .dm fun _ _ => 0

lemma update1_protocol (fid : QState → QState → ℚ) (rand : Nat → QState)
    (s : GroundingState) : (update1 fid rand s).protocol = s.protocol := by
  simp only [update1, check_clearance1]
  split_ifs <;> rfl

lemma update3_protocol (fid : QState → QState → ℚ) (s : GroundingState) :
    (update3 fid s).protocol = s.protocol := by
  simp only [update3, check_clearance3]
  split_ifs <;> rfl

lemma update1_scan_progress (fid : QState → QState → ℚ)
    (rand : Nat → QState) (s : GroundingState) (h : s.is_scanning = true)
    (hlt : s.scan_timer + 1 ≤ 100) :
    (update1 fid rand s).is_scanning = true ∧
    (update1 fid rand s).scan_timer = s.scan_timer + 1 := by
  have hgt : ¬ (s.scan_timer + 1 > 100) := by omega
  simp only [update1, h, if_true]
  rw [if_neg hgt]
  split_ifs <;> exact ⟨by simp [h], rfl⟩

lemma update3_scan_progress (fid : QState → QState → ℚ)
    (s : GroundingState) (h : s.is_scanning = true)
    (hlt : s.scan_timer + 1 ≤ 120) :
    (update3 fid s).is_scanning = true ∧
    (update3 fid s).scan_timer = s.scan_timer + 1 := by
  have hgt : ¬ (s.scan_timer + 1 > 120) := by omega
  simp only [update3, h, if_true]
  rw [if_neg hgt]
  split_ifs <;> exact ⟨by simp [h], rfl⟩

lemma update1_scan_end (fid : QState → QState → ℚ) (rand : Nat → QState)
    (s : GroundingState) (h : s.is_scanning = true)
    (ht : s.scan_timer = 100) :
    (update1 fid rand s).is_scanning = false := by
  simp only [update1, h, if_true, ht]
  norm_num

lemma update3_scan_end (fid : QState → QState → ℚ) (s : GroundingState)
    (h : s.is_scanning = true) (ht : s.scan_timer = 120) :
    (update3 fid s).is_scanning = false := by
  simp only [update3, h, if_true, ht]
  norm_num

lemma run1_progress (fid : QState → QState → ℚ) (rand : Nat → QState)
    (s : GroundingState) (h : s.is_scanning = true)
    (ht : s.scan_timer = 0) :
    ∀ n, n ≤ 100 →
      ((update1 fid rand)^[n] s).is_scanning = true ∧
      ((update1 fid rand)^[n] s).scan_timer = n ∧
      ((update1 fid rand)^[n] s).protocol = s.protocol := by
  intro n
  induction n with
  | zero =>
    intro _
    simp [h, ht]
  | succ k ih =>
    intro hk
    have ihk := ih (by omega)
    rw [Function.iterate_succ_apply']
    have hb := update1_scan_progress fid rand _ ihk.1
      (by rw [ihk.2.1]; omega)
    refine ⟨hb.1, ?_, ?_⟩
    · rw [hb.2, ihk.2.1]
    · rw [update1_protocol, ihk.2.2]

lemma run3_progress (fid : QState → QState → ℚ) (s : GroundingState)
    (h : s.is_scanning = true) (ht : s.scan_timer = 0) :
    ∀ n, n ≤ 120 →
      ((update3 fid)^[n] s).is_scanning = true ∧
      ((update3 fid)^[n] s).scan_timer = n ∧
      ((update3 fid)^[n] s).protocol = s.protocol := by
  intro n
  induction n with
  | zero =>
    intro _
    simp [h, ht]
  | succ k ih =>
    intro hk
    have ihk := ih (by omega)
    rw [Function.iterate_succ_apply']
    have hb := update3_scan_progress fid _ ihk.1 (by rw [ihk.2.1]; omega)
    refine ⟨hb.1, ?_, ?_⟩
    · rw [hb.2, ihk.2.1]
    · rw [update3_protocol, ihk.2.2]

lemma run1_complete (fid : QState → QState → ℚ) (rand : Nat → QState)
    (s : GroundingState) (h : s.is_scanning = true)
    (ht : s.scan_timer = 0) :
    ((update1 fid rand)^[101] s).is_scanning = false ∧
    ((update1 fid rand)^[101] s).protocol = s.protocol := by
  have h100 := run1_progress fid rand s h ht 100 (by omega)
  rw [show (101 : Nat) = 100 + 1 from rfl, Function.iterate_succ_apply']
  exact ⟨update1_scan_end fid rand _ h100.1 h100.2.1,
    by rw [update1_protocol, h100.2.2]⟩

lemma run3_complete (fid : QState → QState → ℚ) (s : GroundingState)
    (h : s.is_scanning = true) (ht : s.scan_timer = 0) :
    ((update3 fid)^[121] s).is_scanning = false ∧
    ((update3 fid)^[121] s).protocol = s.protocol := by
  have h120 := run3_progress fid s h ht 120 (by omega)
  rw [show (121 : Nat) = 120 + 1 from rfl, Function.iterate_succ_apply']
  exact ⟨update3_scan_end fid _ h120.1 h120.2.1,
    by rw [update3_protocol, h120.2.2]⟩

lemma cycle1_protocol_of_ne (fresh : QState) (s : GroundingState)
    (hsc : s.is_scanning = false) (hp : s.protocol ≠ "INIT: 0,0") :
    (cycle_protocol1 fresh s).protocol = "INIT: 0,1" := by
  simp only [cycle_protocol1, hsc, Bool.false_eq_true, if_false]
  rw [if_neg hp]

lemma cycle3_protocol_of_ne (fresh : QState) (s : GroundingState)
    (hsc : s.is_scanning = false) (hp : s.protocol ≠ "INIT: 0") :
    (cycle_protocol3 fresh s).protocol = "INIT: 0" := by
  simp only [cycle_protocol3, hsc, Bool.false_eq_true, if_false]
  rw [if_neg hp]

/-- C8: evaluated at the code's failing input.  In the duplex variant the
trigger is not a two-value toggle: from the initial state (label
`"INIT: 0,0"`, not scanning), triggering, letting the 101-tick scan
complete, and triggering again leaves the label `"INIT: 0,1"`, because
`cycle_protocol`'s else-branch writes `"INIT: 0,1"` while only the exact
string `"INIT: 0,0"` re-enters the converge protocol — so the label runs
through three values and converge mode is never reachable again.  The
horizon variant realises the claimed toggle: the same experiment restores
its label `"INIT: 0"`. -/
theorem trigger_toggle_not_restored :
    (init1 q0).is_scanning = false ∧
    (init1 q0).protocol = "INIT: 0,0" ∧
    ((update1 fid0 rand0)^[101]
      (cycle_protocol1 q0 (init1 q0))).is_scanning = false ∧
    (cycle_protocol1 q0 ((update1 fid0 rand0)^[101]
      (cycle_protocol1 q0 (init1 q0)))).protocol = "INIT: 0,1" ∧
    "INIT: 0,1" ≠ "INIT: 0,0" ∧
    (init3 q0).protocol = "INIT: 0" ∧
    ((update3 fid0)^[121] (cycle_protocol3 q0 (init3 q0))).is_scanning =
      false ∧
    (cycle_protocol3 q0 ((update3 fid0)^[121]
      (cycle_protocol3 q0 (init3 q0)))).protocol = "INIT: 0" := by
  have hs1 : (cycle_protocol1 q0 (init1 q0)).is_scanning = true := rfl
  have hs1t : (cycle_protocol1 q0 (init1 q0)).scan_timer = 0 := rfl
  have hp1 : (cycle_protocol1 q0 (init1 q0)).protocol = groundingLabel := rfl
  have hrun1 := run1_complete fid0 rand0 _ hs1 hs1t
  have hs3 : (cycle_protocol3 q0 (init3 q0)).is_scanning = true := rfl
  have hs3t : (cycle_protocol3 q0 (init3 q0)).scan_timer = 0 := rfl
  have hp3 : (cycle_protocol3 q0 (init3 q0)).protocol = horizonLabel := rfl
  have hrun3 := run3_complete fid0 _ hs3 hs3t
  refine ⟨rfl, rfl, hrun1.1, ?_, by decide, rfl, hrun3.1, ?_⟩
  · exact cycle1_protocol_of_ne q0 _ hrun1.1 (by rw [hrun1.2, hp1]; decide)
  · exact cycle3_protocol_of_ne q0 _ hrun3.1 (by rw [hrun3.2, hp3]; decide)

/-- States of the horizon variant reachable from initialization by
triggering (`cycle_protocol`, with any sampled fresh state) and ticking
(`update`, with any fidelity-oracle values; clearance evaluation happens
inside the tick that crosses the bound). -/
inductive Reachable3 : GroundingState → Prop where
  | init (q : QState) : Reachable3 (init3 q)
  | cycle (fresh : QState) {s : GroundingState} :
      Reachable3 s → Reachable3 (cycle_protocol3 fresh s)
  | tick (fid : QState → QState → ℚ) {s : GroundingState} :
      Reachable3 s → Reachable3 (update3 fid s)

/-- States of the duplex variant reachable from initialization by
triggering and ticking. -/
inductive Reachable1 : GroundingState → Prop where
  | init (q : QState) : Reachable1 (init1 q)
  | cycle (fresh : QState) {s : GroundingState} :
      Reachable1 s → Reachable1 (cycle_protocol1 fresh s)
  | tick (fid : QState → QState → ℚ) (rand : Nat → QState)
      {s : GroundingState} :
      Reachable1 s → Reachable1 (update1 fid rand s)

lemma cycle3_grounding (fresh : QState) (s : GroundingState) :
    (cycle_protocol3 fresh s).grounding_level = s.grounding_level ∨
    (cycle_protocol3 fresh s).grounding_level = 0 := by
  simp only [cycle_protocol3]
  split_ifs <;> simp

lemma cycle1_grounding (fresh : QState) (s : GroundingState) :
    (cycle_protocol1 fresh s).grounding_level = s.grounding_level ∨
    (cycle_protocol1 fresh s).grounding_level = 0 := by
  simp only [cycle_protocol1]
  split_ifs <;> simp

lemma update3_grounding (fid : QState → QState → ℚ) (s : GroundingState) :
    (update3 fid s).grounding_level = s.grounding_level ∨
    (update3 fid s).grounding_level = 0 ∨
    (update3 fid s).grounding_level = 2 := by
  simp only [update3, check_clearance3]
  split_ifs <;> simp

lemma update1_grounding (fid : QState → QState → ℚ) (rand : Nat → QState)
    (s : GroundingState) :
    (update1 fid rand s).grounding_level = s.grounding_level ∨
    (update1 fid rand s).grounding_level = 0 ∨
    (update1 fid rand s).grounding_level = 2 := by
  simp only [update1, check_clearance1]
  split_ifs <;> simp

/-- C10: in every reachable state of either variant's machine the grounding
level is 0 or 2; no operation after initialization ever assigns the
intermediate level 1 (initialization sets 0, triggering resets to 0, and
clearance sets 2 on Granted or 0 on Denied). -/
theorem grounding_level_binary :
    (∀ s, Reachable3 s → s.grounding_level = 0 ∨ s.grounding_level = 2) ∧
    (∀ s, Reachable1 s → s.grounding_level = 0 ∨ s.grounding_level = 2) := by
  constructor
  · intro s h
    induction h with
    | init q => exact Or.inl rfl
    | @cycle fresh s' hs ih =>
      rcases cycle3_grounding fresh s' with h1 | h1
      · rw [h1]; exact ih
      · exact Or.inl h1
    | @tick fid s' hs ih =>
      rcases update3_grounding fid s' with h1 | h1 | h1
      · rw [h1]; exact ih
      · exact Or.inl h1
      · exact Or.inr h1
  · intro s h
    induction h with
    | init q => exact Or.inl rfl
    | @cycle fresh s' hs ih =>
      rcases cycle1_grounding fresh s' with h1 | h1
      · rw [h1]; exact ih
      · exact Or.inl h1
    | @tick fid rand s' hs ih =>
      rcases update1_grounding fid rand s' with h1 | h1 | h1
      · rw [h1]; exact ih
      · exact Or.inl h1
      · exact Or.inr h1

/-- Witness for `grounding_level_binary` at the two initial states. -/
theorem grounding_level_binary_witness :
    ((init3 q0).grounding_level = 0 ∨ (init3 q0).grounding_level = 2) ∧
    ((init1 q0).grounding_level = 0 ∨ (init1 q0).grounding_level = 2) :=
  ⟨grounding_level_binary.1 (init3 q0) (Reachable3.init q0),
   grounding_level_binary.2 (init1 q0) (Reachable1.init q0)⟩
